import Mathlib

set_option maxRecDepth 4000

/-!
# WD1770 floppy-disk-controller emulator: a shallow embedding

This file embeds the core of the `wd1770-sd` repository in Lean 4 and proves
(or refutes) the testable properties its specification states.

The embedding follows the C++ sources:
* `FdcDevice.{h,cpp}` — register file, bus protocol, command decoder and
  sequencing state machine;
* `DiskManager.{h,cpp}` — image catalogue scan and Extended-DSK header parse;
* `DiskImage.h` — image geometry record.

Modelling conventions:
* 8-bit machine quantities (`uint8_t`) live in `Nat`, reduced `% 256` exactly
  where the C type forces truncation; 16-bit quantities likewise `% 65536`;
  32-bit offset arithmetic is computed in `Int` and reduced `emod 2^32`
  (C unsigned wrap-around).
* `micros()` timestamps are modelled as an unbounded `Nat` clock; the 32-bit
  wrap of the hardware counter is abstracted away, matching the spec's own
  timing model `now − start_time ≥ step_rate`.
* The SD backend is an oracle (`SdEnv`): whether an open succeeds, whether a
  read delivers the full sector, and the bytes of the backing file.  File
  traffic is made observable as a list of `FileEvent`s (offset and length of
  every read/write the sector gateway performs).
* The `sectorBuffer[1024]` staging array is a total function `Nat → Nat`;
  the C array bound does not exist in the model, so out-of-bounds accesses
  show up as indices `≥ 1024` rather than as memory corruption.
-/

namespace WD1770

/-! ## Constants (FdcDevice.h, DiskManager.h) -/

def CMD_RESTORE : Nat := 0x00
def CMD_SEEK : Nat := 0x10
def CMD_STEP : Nat := 0x20
def CMD_STEP_IN : Nat := 0x40
def CMD_STEP_OUT : Nat := 0x60
def CMD_READ_SECTOR : Nat := 0x80
def CMD_READ_SECTORS : Nat := 0x90
def CMD_WRITE_SECTOR : Nat := 0xA0
def CMD_WRITE_SECTORS : Nat := 0xB0
def CMD_READ_ADDRESS : Nat := 0xC0
def CMD_FORCE_INT : Nat := 0xD0

def ST_BUSY : Nat := 0x01
def ST_DRQ : Nat := 0x02
def ST_TRACK00 : Nat := 0x04
def ST_RNF : Nat := 0x10
def ST_WRITE_PROTECT : Nat := 0x40

def MAX_TRACKS : Nat := 84
def MAX_DISK_IMAGES : Nat := 100

def STEP_TIME_6MS : Nat := 6000
def STEP_TIME_12MS : Nat := 12000
def STEP_TIME_20MS : Nat := 20000
def STEP_TIME_30MS : Nat := 30000

/-! ## Data model -/

/-- `FDCStateEnum` of `FdcDevice.h`. -/
inductive FDCStateEnum where
  | STATE_IDLE
  | STATE_SEEKING
  | STATE_SETTLING
  | STATE_READING_SECTOR
  | STATE_SECTOR_READ_COMPLETE
  | STATE_WRITING_SECTOR
  | STATE_SECTOR_WRITE_COMPLETE
  | STATE_WAITING_FOR_DATA_IN
  | STATE_WAITING_FOR_DATA_OUT
  deriving DecidableEq, Repr

export FDCStateEnum (STATE_IDLE STATE_SEEKING STATE_SETTLING STATE_READING_SECTOR
  STATE_SECTOR_READ_COMPLETE STATE_WRITING_SECTOR STATE_SECTOR_WRITE_COMPLETE
  STATE_WAITING_FOR_DATA_IN STATE_WAITING_FOR_DATA_OUT)

/-- The `FDCState` struct of `FdcDevice.h` (fields the core never reads —
`doubleDensity`, `writeProtect`, `motorOn` — are omitted). -/
structure FDCState where
  status : Nat
  track : Nat
  sector : Nat
  data : Nat
  command : Nat
  currentTrack : Nat
  direction : Int
  busy : Bool
  drq : Bool
  intrq : Bool
  dataIndex : Nat
  dataLength : Nat
  sectorBuffer : Nat → Nat
  operationStartTime : Nat
  stepRate : Nat
  state : FDCStateEnum
  sectorsRemaining : Nat
  multiSector : Bool

/-- The `DiskImage` record of `DiskImage.h` (geometry of the bound image).
An unbound drive is represented, as in the source, by `size = 0`. -/
structure DiskImage where
  size : Nat
  tracks : Nat
  sectorsPerTrack : Nat
  sectorSize : Nat
  doubleDensity : Bool
  writeProtected : Bool
  isExtendedDSK : Bool
  headerOffset : Nat
  trackHeaderSize : Nat
  deriving DecidableEq, Repr

/-- Oracle for the SD backend: success of `sd->open` for read and write,
whether `read` returns the full sector, and the backing file's bytes. -/
structure SdEnv where
  openReadOk : Bool
  readFull : Bool
  openWriteOk : Bool
  fileData : Nat → Nat

/-- Observable file traffic of the sector gateway: a `seek`+`read` or a
`seek`+`write` of `len` bytes at byte `offset` of the image file. -/
inductive FileEvent where
  | fileRead (offset len : Nat)
  | fileWrite (offset len : Nat)
  deriving DecidableEq, Repr

/-- `FdcDevice::begin()`: the reset state (the constructor zero-fills the
struct, so `sectorBuffer` starts all-zero). -/
def beginState : FDCState where
  status := ST_TRACK00
  track := 0
  sector := 1
  data := 0
  command := 0
  currentTrack := 0
  direction := 1
  busy := false
  drq := false
  intrq := false
  dataIndex := 0
  dataLength := 0
  sectorBuffer := fun _ => 0
  operationStartTime := 0
  stepRate := STEP_TIME_6MS
  state := STATE_IDLE
  sectorsRemaining := 0
  multiSector := false

/-! ## Sector gateway (FdcDevice.cpp: readSectorData / writeSectorData) -/

/-- The byte-offset computation shared verbatim by `readSectorData` and
`writeSectorData`.  The C arithmetic is `uint32_t` with `fdc.sector - 1`
evaluated as a signed `int`, so the whole expression is computed in `Int`
and wrapped modulo `2^32`. -/
def sectorOffset (disk : DiskImage) (currentTrack sector : Nat) : Nat :=
  let raw : Int :=
    if disk.isExtendedDSK then
      let trackSize : Int := (disk.trackHeaderSize : Int) +
        (disk.sectorsPerTrack : Int) * (disk.sectorSize : Int)
      (disk.headerOffset : Int) + (currentTrack : Int) * trackSize +
        (disk.trackHeaderSize : Int) + ((sector : Int) - 1) * (disk.sectorSize : Int)
    else
      ((currentTrack : Int) * (disk.sectorsPerTrack : Int) + ((sector : Int) - 1)) *
        (disk.sectorSize : Int)
  (raw % (2 ^ 32)).toNat

/-- `FdcDevice::readSectorData()`.  Returns the successor state together with
the file traffic performed.  The `!diskManager || !sd` early-out is wiring
that cannot occur once the device is initialised and is not modelled;
`getDisk` never returns null for drives 0/1, so absence of media is exactly
`size = 0`, as in the source. -/
def readSectorData (env : SdEnv) (disk : DiskImage) (fdc : FDCState) :
    FDCState × List FileEvent :=
  if disk.size = 0 then
    ({ fdc with status := ST_RNF, busy := false, intrq := true, state := STATE_IDLE }, [])
  else if fdc.sector < 1 ∨ disk.sectorsPerTrack < fdc.sector then
    ({ fdc with status := ST_RNF, busy := false, intrq := true, state := STATE_IDLE }, [])
  else
    let offset := sectorOffset disk fdc.currentTrack fdc.sector
    if env.openReadOk = false then
      ({ fdc with status := ST_RNF, busy := false, intrq := true, state := STATE_IDLE }, [])
    else
      let buf := fun i => if i < disk.sectorSize then env.fileData (offset + i) % 256
                          else fdc.sectorBuffer i
      if env.readFull = false then
        ({ fdc with sectorBuffer := buf,
                    status := ST_RNF, busy := false, intrq := true, state := STATE_IDLE },
         [FileEvent.fileRead offset disk.sectorSize])
      else
        ({ fdc with sectorBuffer := buf,
                    dataIndex := 0, dataLength := disk.sectorSize, drq := true,
                    status := ST_BUSY ||| ST_DRQ, state := STATE_READING_SECTOR },
         [FileEvent.fileRead offset disk.sectorSize])

/-- `FdcDevice::writeSectorData()`.  Note: unlike `readSectorData`, the
source performs no sector-range validation here. -/
def writeSectorData (env : SdEnv) (disk : DiskImage) (fdc : FDCState) :
    FDCState × List FileEvent :=
  if disk.size = 0 then
    ({ fdc with status := ST_RNF, busy := false, intrq := true, state := STATE_IDLE }, [])
  else
    let offset := sectorOffset disk fdc.currentTrack fdc.sector
    if env.openWriteOk = false then
      ({ fdc with status := ST_WRITE_PROTECT, busy := false, intrq := true,
                  state := STATE_IDLE }, [])
    else
      ({ fdc with state := STATE_SECTOR_WRITE_COMPLETE },
       [FileEvent.fileWrite offset disk.sectorSize])

/-! ## Command handlers (FdcDevice.cpp) -/

/-- `FdcDevice::getStepRate()` — two low bits of the command byte. -/
def getStepRate (fdc : FDCState) : Nat :=
  match fdc.command % 4 with
  | 0 => STEP_TIME_6MS
  | 1 => STEP_TIME_12MS
  | 2 => STEP_TIME_20MS
  | _ => STEP_TIME_30MS

/-- `FdcDevice::cmdRestore()`. -/
def cmdRestore (now : Nat) (fdc : FDCState) : FDCState :=
  { fdc with busy := true, status := ST_BUSY, currentTrack := 0, track := 0,
             direction := -1, state := STATE_SEEKING,
             stepRate := getStepRate fdc, operationStartTime := now }

/-- `FdcDevice::cmdSeek()`. -/
def cmdSeek (now : Nat) (fdc : FDCState) : FDCState :=
  { fdc with busy := true, status := ST_BUSY,
             direction := if fdc.currentTrack < fdc.data then 1 else -1,
             state := STATE_SEEKING,
             stepRate := getStepRate fdc, operationStartTime := now }

/-- `FdcDevice::cmdStep()` (direction reused from the previous command). -/
def cmdStep (now : Nat) (fdc : FDCState) : FDCState :=
  { fdc with busy := true, status := ST_BUSY, state := STATE_SEEKING,
             stepRate := getStepRate fdc, operationStartTime := now }

/-- `FdcDevice::cmdStepIn()`. -/
def cmdStepIn (now : Nat) (fdc : FDCState) : FDCState :=
  { fdc with busy := true, status := ST_BUSY, direction := 1, state := STATE_SEEKING,
             stepRate := getStepRate fdc, operationStartTime := now }

/-- `FdcDevice::cmdStepOut()`. -/
def cmdStepOut (now : Nat) (fdc : FDCState) : FDCState :=
  { fdc with busy := true, status := ST_BUSY, direction := -1, state := STATE_SEEKING,
             stepRate := getStepRate fdc, operationStartTime := now }

/-- `FdcDevice::cmdReadSector()` (both `CMD_READ_SECTOR` and
`CMD_READ_SECTORS`).  On an unbound drive the source sets RNF and INTRQ and
returns without touching `busy` or `state`. -/
def cmdReadSector (env : SdEnv) (disk : DiskImage) (now : Nat) (fdc : FDCState) :
    FDCState × List FileEvent :=
  if disk.size = 0 then
    ({ fdc with status := ST_RNF, intrq := true }, [])
  else
    readSectorData env disk
      { fdc with busy := true, status := ST_BUSY,
                 multiSector := fdc.command &&& 0xF0 = CMD_READ_SECTORS,
                 sectorsRemaining :=
                   if fdc.command &&& 0xF0 = CMD_READ_SECTORS then disk.sectorsPerTrack
                   else 1,
                 state := STATE_READING_SECTOR, operationStartTime := now }

/-- `FdcDevice::cmdWriteSector()` (both `CMD_WRITE_SECTOR` and
`CMD_WRITE_SECTORS`).  Note: no validation of the Sector register. -/
def cmdWriteSector (disk : DiskImage) (now : Nat) (fdc : FDCState) : FDCState :=
  if disk.size = 0 then
    { fdc with status := ST_RNF, intrq := true }
  else if disk.writeProtected then
    { fdc with status := ST_WRITE_PROTECT, intrq := true }
  else
    { fdc with busy := true, status := ST_BUSY,
               multiSector := fdc.command &&& 0xF0 = CMD_WRITE_SECTORS,
               sectorsRemaining :=
                 if fdc.command &&& 0xF0 = CMD_WRITE_SECTORS then disk.sectorsPerTrack
                 else 1,
               dataIndex := 0, dataLength := disk.sectorSize, drq := true,
               state := STATE_WAITING_FOR_DATA_IN, operationStartTime := now }

/-- `FdcDevice::cmdReadAddress()` — synthesises the six-byte ID field
`[currentTrack, 0, 1, 2, 0, 0]` into the staging buffer. -/
def cmdReadAddress (fdc : FDCState) : FDCState :=
  let buf := fun i =>
    if i = 0 then fdc.currentTrack
    else if i = 1 then 0
    else if i = 2 then 1
    else if i = 3 then 2
    else if i = 4 then 0
    else if i = 5 then 0
    else fdc.sectorBuffer i
  { fdc with sectorBuffer := buf, dataIndex := 0, dataLength := 6,
             drq := true, busy := true, status := ST_BUSY,
             state := STATE_READING_SECTOR }

/-- `FdcDevice::cmdForceInterrupt()` — unconditional. -/
def cmdForceInterrupt (fdc : FDCState) : FDCState :=
  { fdc with busy := false, drq := false, intrq := true,
             state := STATE_IDLE, status := 0 }

/-! ## Register access (FdcDevice.cpp: handleRead / handleWrite) -/

/-- `FdcDevice::handleRead(addr)`: successor state and the byte driven onto
the data bus. -/
def handleRead (addr : Nat) (fdc : FDCState) : FDCState × Nat :=
  match addr with
  | 0 =>
    let value := fdc.status ||| (if fdc.busy then ST_BUSY else 0) |||
      (if fdc.drq then ST_DRQ else 0)
    ({ fdc with intrq := false }, value)
  | 1 => (fdc, fdc.track)
  | 2 => (fdc, fdc.sector)
  | 3 =>
    if fdc.state = STATE_READING_SECTOR ∧ fdc.dataIndex < fdc.dataLength then
      let value := fdc.sectorBuffer fdc.dataIndex
      let fdc := { fdc with data := value, dataIndex := fdc.dataIndex + 1 }
      if fdc.dataLength ≤ fdc.dataIndex then
        ({ fdc with drq := false, state := STATE_SECTOR_READ_COMPLETE }, value)
      else (fdc, value)
    else (fdc, fdc.data)
  | _ => (fdc, 0)

/-- `FdcDevice::handleWrite(addr)`: the register-specific write effect, after
the bus byte has been latched into `fdc.data` (see `Act.busWrite`). -/
def handleWrite (env : SdEnv) (disk : DiskImage) (now : Nat) (addr : Nat)
    (fdc : FDCState) : FDCState × List FileEvent :=
  match addr with
  | 0 =>
    let fdc := { fdc with command := fdc.data }
    if fdc.command &&& 0xF0 = CMD_RESTORE then (cmdRestore now fdc, [])
    else if fdc.command &&& 0xF0 = CMD_SEEK then (cmdSeek now fdc, [])
    else if fdc.command &&& 0xE0 = CMD_STEP then (cmdStep now fdc, [])
    else if fdc.command &&& 0xE0 = CMD_STEP_IN then (cmdStepIn now fdc, [])
    else if fdc.command &&& 0xE0 = CMD_STEP_OUT then (cmdStepOut now fdc, [])
    else if fdc.command &&& 0xF0 = CMD_READ_SECTOR ∨
            fdc.command &&& 0xF0 = CMD_READ_SECTORS then
      cmdReadSector env disk now fdc
    else if fdc.command &&& 0xF0 = CMD_WRITE_SECTOR ∨
            fdc.command &&& 0xF0 = CMD_WRITE_SECTORS then
      (cmdWriteSector disk now fdc, [])
    else if fdc.command &&& 0xF0 = CMD_READ_ADDRESS then (cmdReadAddress fdc, [])
    else if fdc.command &&& 0xF0 = CMD_FORCE_INT then (cmdForceInterrupt fdc, [])
    else (fdc, [])
  | 1 => ({ fdc with track := fdc.data }, [])
  | 2 => ({ fdc with sector := fdc.data }, [])
  | 3 =>
    if fdc.state = STATE_WAITING_FOR_DATA_IN ∧ fdc.dataIndex < fdc.dataLength then
      let fdc := { fdc with
        sectorBuffer := fun i => if i = fdc.dataIndex then fdc.data
                                 else fdc.sectorBuffer i,
        dataIndex := fdc.dataIndex + 1 }
      if fdc.dataLength ≤ fdc.dataIndex then
        writeSectorData env disk
          { fdc with drq := false, state := STATE_WRITING_SECTOR }
      else (fdc, [])
    else (fdc, [])
  | _ => (fdc, [])

/-! ## Sequencing state machine (FdcDevice.cpp: processStateMachine) -/

/-- `FdcDevice::processStateMachine()`.  In the STEP branch the source's
`currentTrack < 0` test is dead (`currentTrack` is `uint8_t`); the `uint8_t`
increment is modelled by `emod 256`, after which only the upper clamp to
`MAX_TRACKS` can fire, exactly as in the compiled code. -/
def processStateMachine (env : SdEnv) (disk : DiskImage) (now : Nat)
    (fdc : FDCState) : FDCState × List FileEvent :=
  match fdc.state with
  | STATE_SEEKING =>
    if fdc.stepRate ≤ now - fdc.operationStartTime then
      if fdc.command &&& 0xF0 = CMD_RESTORE then
        ({ fdc with currentTrack := 0, track := 0, status := ST_TRACK00,
                    busy := false, intrq := true, state := STATE_IDLE }, [])
      else if fdc.command &&& 0xF0 = CMD_SEEK then
        let ct := fdc.data
        ({ fdc with currentTrack := ct,
                    track := if fdc.command &&& 0x10 ≠ 0 then ct else fdc.track,
                    status := if ct = 0 then ST_TRACK00 else 0,
                    busy := false, intrq := true, state := STATE_IDLE }, [])
      else
        let t1 := (((fdc.currentTrack : Int) + fdc.direction).emod 256).toNat
        let ct := if MAX_TRACKS < t1 then MAX_TRACKS else t1
        ({ fdc with currentTrack := ct,
                    track := if fdc.command &&& 0x10 ≠ 0 then ct else fdc.track,
                    status := if ct = 0 then ST_TRACK00 else 0,
                    busy := false, intrq := true, state := STATE_IDLE }, [])
    else (fdc, [])
  | STATE_SECTOR_READ_COMPLETE =>
    if fdc.multiSector ∧ 1 < fdc.sectorsRemaining then
      readSectorData env disk
        { fdc with sectorsRemaining := fdc.sectorsRemaining - 1,
                   sector := (fdc.sector + 1) % 256 }
    else
      ({ fdc with busy := false, drq := false, intrq := true, status := 0,
                  state := STATE_IDLE }, [])
  | STATE_SECTOR_WRITE_COMPLETE =>
    if fdc.multiSector ∧ 1 < fdc.sectorsRemaining then
      ({ fdc with sectorsRemaining := fdc.sectorsRemaining - 1,
                  sector := (fdc.sector + 1) % 256,
                  dataIndex := 0, drq := true,
                  state := STATE_WAITING_FOR_DATA_IN }, [])
    else
      ({ fdc with busy := false, drq := false, intrq := true, status := 0,
                  state := STATE_IDLE }, [])
  | _ => (fdc, [])

/-! ## The polled transition system -/

/-- One interaction with the engine: a host bus read, a host bus write (the
byte is latched into the Data register before `handleWrite` runs, as in
`FdcDevice::handleBus`), or one state-machine polling tick. -/
inductive Act where
  | busRead (addr : Nat)
  | busWrite (addr d : Nat)
  | tick
  deriving DecidableEq, Repr

/-- One step input: the action, the SD oracle for any gateway call the step
makes, and the `micros()` reading. -/
structure StepInput where
  act : Act
  env : SdEnv
  now : Nat

/-- One step of the engine with a fixed bound image. -/
def stepFdc (disk : DiskImage) (inp : StepInput) (fdc : FDCState) :
    FDCState × List FileEvent :=
  match inp.act with
  | Act.busRead addr => ((handleRead addr fdc).1, [])
  | Act.busWrite addr d =>
    handleWrite inp.env disk inp.now addr { fdc with data := d % 256 }
  | Act.tick => processStateMachine inp.env disk inp.now fdc

/-- Run a list of step inputs, collecting the file traffic. -/
def runFdc (disk : DiskImage) : List StepInput → FDCState → FDCState × List FileEvent
  | [], fdc => (fdc, [])
  | i :: is, fdc =>
    let r := stepFdc disk i fdc
    let r' := runFdc disk is r.1
    (r'.1, r.2 ++ r'.2)

/-- Reachability from reset with a fixed bound image. -/
def Reachable (disk : DiskImage) (fdc : FDCState) : Prop :=
  ∃ l : List StepInput, (runFdc disk l beginState).1 = fdc

/-! ## Drive select (FdcDevice.cpp: checkDriveSelect) -/

/-- `FdcDevice::checkDriveSelect()`.  `ds0High`/`ds1High` are the levels
`digitalRead` returns on the two drive-select pins (`true` = HIGH). -/
def checkDriveSelect (ds0High ds1High : Bool) (activeDrive : Nat) : Nat :=
  if ds0High then 0
  else if ds1High then 1
  else activeDrive

/-- Modelled from the spec's words for comparison (§4.3.6): the drive-select
inputs are *active-low*, so "DS0 asserted" means the pin reads LOW;
"DS0 asserted → 0; else DS1 asserted → 1; else keep previous". -/
def specDriveSelect (ds0High ds1High : Bool) (activeDrive : Nat) : Nat :=
  if ds0High = false then 0
  else if ds1High = false then 1
  else activeDrive

/-! ## Image catalogue scan (DiskManager.cpp: scanImages) -/

/-- `strncmp`-style check that `needle` occurs at the head of `hay`. -/
def startsWithSeq : List Char → List Char → Bool
  | [], _ => true
  | _ :: _, [] => false
  | c :: cs, d :: ds => c = d && startsWithSeq cs ds

/-- `strstr`: does `needle` occur as a contiguous substring of `hay`? -/
def containsSeq (needle : List Char) : List Char → Bool
  | [] => startsWithSeq needle []
  | d :: ds => startsWithSeq needle (d :: ds) || containsSeq needle ds

/-- The extension test of `DiskManager::scanImages`: uppercase (the first 63
characters of) the name, then `strstr` against the four extensions.  The
63-character cut mirrors `strncpy(upper, filename, 63)`. -/
def matchesExt (name : List Char) : Bool :=
  let upper := (name.take 63).map Char.toUpper
  containsSeq ".DSK".toList upper || containsSeq ".IMG".toList upper ||
    containsSeq ".ST".toList upper || containsSeq ".HFE".toList upper

/-- Modelled from the spec's words (§4.1) for comparison: accept names that
*end in* one of the four extensions, case-insensitively. -/
def specAcceptName (name : List Char) : Bool :=
  let upper := name.map Char.toUpper
  startsWithSeq (".DSK".toList.reverse) upper.reverse ||
    startsWithSeq (".IMG".toList.reverse) upper.reverse ||
    startsWithSeq (".ST".toList.reverse) upper.reverse ||
    startsWithSeq (".HFE".toList.reverse) upper.reverse

/-- One directory entry as enumerated by the backend. -/
structure DirEntry where
  name : List Char
  isDir : Bool
  deriving DecidableEq

/-- The enumeration loop of `DiskManager::scanImages`, with `total` the
running `totalImages` counter; stored names are cut to 63 characters
(`strncpy(..., 63)` plus forced terminator). -/
def scanLoop : List DirEntry → Nat → List (List Char)
  | [], _ => []
  | e :: es, total =>
    if e.isDir = false ∧ matchesExt e.name = true ∧ total < MAX_DISK_IMAGES then
      e.name.take 63 :: scanLoop es (total + 1)
    else scanLoop es total

/-- `DiskManager::scanImages()`: the catalogue built from the backend's
enumeration order. -/
def scanImages (entries : List DirEntry) : List (List Char) :=
  scanLoop entries 0

/-! ## Extended-DSK header parse (DiskManager.cpp: parseExtendedDSK) -/

/-- The geometry overlay `DiskManager::parseExtendedDSK` applies once both
signatures have matched: `tracks` from disk-header byte 0x30, sector count
from track-header byte 0x15, sector size `128 << code` with the code from
track-header byte 0x14.  The header bytes are `uint8_t` (hence `% 256`) and
`disk->sectorSize` is `uint16_t` (hence `% 65536`). -/
def parseExtendedDSK (disk : DiskImage) (diskHeader trackHeader : Nat → Nat) :
    DiskImage :=
  let sectorSize := (128 <<< (trackHeader 0x14 % 256)) % 65536
  { disk with
      tracks := diskHeader 0x30 % 256,
      sectorsPerTrack := trackHeader 0x15 % 256,
      sectorSize := sectorSize,
      isExtendedDSK := true,
      headerOffset := 256,
      trackHeaderSize := 256,
      doubleDensity := 512 ≤ sectorSize }

/-! ## Bus-level data-bus ownership (FdcDevice.cpp: handleBus) -/

/-- The bus-side state of `FdcDevice`: the remembered chip-select level
(`lastCS` holds the *asserted* boolean, i.e. pin LOW), whether the D-lines
are currently configured as outputs, the `dataBusDriven` flag, and the
`dataValidUntil` expiry. `pinsOutput` tracks the physical `pinMode` of the
eight data pins (`driveDataBus` sets OUTPUT, `releaseDataBus` and
`readDataBus` set INPUT). -/
structure BusState where
  lastCS : Bool
  pinsOutput : Bool
  dataBusDriven : Bool
  dataValidUntil : Nat
  deriving DecidableEq, Repr

/-- Constructor state of `FdcDevice` (`lastCS = true`, bus released). -/
def busInit : BusState where
  lastCS := true
  pinsOutput := false
  dataBusDriven := false
  dataValidUntil := 0

/-- The pin inputs of one `handleBus` poll: chip-select asserted (pin LOW),
read/write strobe high (read), the two address pins, and the byte the host
holds on the data bus (sampled on write cycles). -/
structure BusPins where
  cs : Bool
  rw : Bool
  a0 : Bool
  a1 : Bool
  dbus : Nat

/-- `FdcDevice::handleBus()`.  On the assertion edge of chip-select a read
cycle drives the data bus (`pinMode OUTPUT`, expiry `now + 500`), a write
cycle samples it (`readDataBus` reconfigures the pins as inputs) and applies
the register write; on the de-assertion edge the bus is released only when
it was driven and `now` is past the expiry. -/
def handleBus (env : SdEnv) (disk : DiskImage) (p : BusPins) (now : Nat)
    (b : BusState) (fdc : FDCState) : BusState × FDCState × List FileEvent :=
  let addr := (if p.a1 then 2 else 0) + (if p.a0 then 1 else 0)
  let r :=
    if b.lastCS = false ∧ p.cs = true then
      if p.rw then
        ({ b with pinsOutput := true, dataBusDriven := true,
                  dataValidUntil := now + 500 },
         (handleRead addr fdc).1, ([] : List FileEvent))
      else
        let w := handleWrite env disk now addr { fdc with data := p.dbus % 256 }
        ({ b with pinsOutput := false }, w.1, w.2)
    else (b, fdc, [])
  let b' :=
    if b.lastCS = true ∧ p.cs = false then
      if r.1.dataBusDriven = true ∧ r.1.dataValidUntil < now then
        { r.1 with pinsOutput := false, dataBusDriven := false }
      else r.1
    else r.1
  ({ b' with lastCS := p.cs }, r.2.1, r.2.2)

/-! ## Auxiliary definitions for the statements of the theorems -/

/-- A Type-I command byte (RESTORE, SEEK, STEP, STEP IN, STEP OUT), decoded
exactly as the dispatch chain of `handleWrite` decodes it. -/
def isTypeI (c : Nat) : Bool :=
  (c &&& 0xF0 == CMD_RESTORE) || (c &&& 0xF0 == CMD_SEEK) ||
    (c &&& 0xE0 == CMD_STEP) || (c &&& 0xE0 == CMD_STEP_IN) ||
    (c &&& 0xE0 == CMD_STEP_OUT)

/-- Host Data-register writes delivering the bytes `bs`, one bus cycle each. -/
def mkWrites (env : SdEnv) (now : Nat) (bs : List Nat) : List StepInput :=
  bs.map fun b => ⟨Act.busWrite 3 b, env, now⟩

/-- `k` host Data-register reads, one bus cycle each. -/
def mkReads (env : SdEnv) (now : Nat) (k : Nat) : List StepInput :=
  List.replicate k ⟨Act.busRead 3, env, now⟩

/-! ## Concrete fixtures used by counterexamples and witnesses -/

/-- An empty drive (no media): `size = 0`, as `DiskManager`'s constructor
initialises it. -/
def diskEmpty : DiskImage where
  size := 0
  tracks := 0
  sectorsPerTrack := 0
  sectorSize := 0
  doubleDensity := false
  writeProtected := false
  isExtendedDSK := false
  headerOffset := 0
  trackHeaderSize := 0

/-- The 160 KB Timex FDD 3000 geometry `detectFormat` resolves
(40 tracks, 16 sectors per track, 256-byte sectors). -/
def diskTimex : DiskImage where
  size := 163840
  tracks := 40
  sectorsPerTrack := 16
  sectorSize := 256
  doubleDensity := false
  writeProtected := false
  isExtendedDSK := false
  headerOffset := 0
  trackHeaderSize := 0

/-- The headered Extended-DSK geometry of spec §8 scenario 5:
256-byte disk header, 256-byte track headers, 9 × 512-byte sectors. -/
def diskHdr : DiskImage where
  size := 174336
  tracks := 40
  sectorsPerTrack := 9
  sectorSize := 512
  doubleDensity := true
  writeProtected := false
  isExtendedDSK := true
  headerOffset := 256
  trackHeaderSize := 256

/-- An SD oracle on which every backend operation succeeds and the image
file is all zeroes. -/
def envOk : SdEnv where
  openReadOk := true
  readFull := true
  openWriteOk := true
  fileData := fun _ => 0

/-- The geometry `parseExtendedDSK` produces for an Extended-DSK file whose
first Track-Info block carries sector-size code 4 (byte 0x14) and 9 sectors
per track (byte 0x15). -/
def diskOversize : DiskImage :=
  parseExtendedDSK diskHdr (fun i => if i = 0x30 then 40 else 0)
    (fun i => if i = 0x14 then 4 else if i = 0x15 then 9 else 0)

/-- The inductive invariant of the engine (for a bound image of positive
sector size): DRQ implies the cursor is strictly inside the transfer; a
pending SECTOR_WRITE_COMPLETE has a positive transfer length; and the Data
register, the head position and every staging-buffer byte are 8-bit values. -/
def Inv (s : FDCState) : Prop :=
  (s.drq = true → s.dataIndex < s.dataLength) ∧
  (s.state = STATE_SECTOR_WRITE_COMPLETE → 0 < s.dataLength) ∧
  s.data < 256 ∧ s.currentTrack < 256 ∧ ∀ i, s.sectorBuffer i < 256

/-! # Theorems

## C4 — the Sector Gateway offset formula for headered images -/

/-- C4, counterexample.  The offset formula of `readSectorData` /
`writeSectorData` evaluated at the spec's own worked example
(H = h = 256, spt = 9, ssz = 512, T = 3, S = 4) yields 16640, not the
15680 the claim states: the spec miscomputes `3·(256+9·512)` as 13632
instead of 14592. -/
theorem gateway_offset_example_cex :
    sectorOffset diskHdr 3 4 = 16640 ∧ sectorOffset diskHdr 3 4 ≠ 15680 := by
  decide

/-- C4, amended.  For every headered image (with the in-range bounds that
keep the `uint32_t` arithmetic below 2³²) the gateway byte offset is
`H + T·(h + spt·ssz) + h + (S − 1)·ssz`; both the read gateway and the
write gateway perform their file access at exactly that offset; and at
H = h = 256, spt = 9, ssz = 512, T = 3, S = 4 the offset is 16640
(the claim's 15680 corrected). -/
theorem gateway_offset_formula (disk : DiskImage) (T S : Nat)
    (hext : disk.isExtendedDSK = true) (hS1 : 1 ≤ S) (hS2 : S ≤ 255)
    (hH : disk.headerOffset ≤ 256) (hh : disk.trackHeaderSize ≤ 256)
    (hspt : disk.sectorsPerTrack ≤ 255) (hssz : disk.sectorSize ≤ 65535)
    (hT : T ≤ 255) :
    sectorOffset disk T S =
      disk.headerOffset +
        T * (disk.trackHeaderSize + disk.sectorsPerTrack * disk.sectorSize) +
        disk.trackHeaderSize + (S - 1) * disk.sectorSize ∧
    (∀ env fdc, disk.size ≠ 0 → fdc.currentTrack = T → fdc.sector = S →
      fdc.sector ≤ disk.sectorsPerTrack → env.openReadOk = true →
      (readSectorData env disk fdc).2 =
        [FileEvent.fileRead (sectorOffset disk T S) disk.sectorSize]) ∧
    (∀ env fdc, disk.size ≠ 0 → fdc.currentTrack = T → fdc.sector = S →
      env.openWriteOk = true →
      (writeSectorData env disk fdc).2 =
        [FileEvent.fileWrite (sectorOffset disk T S) disk.sectorSize]) ∧
    sectorOffset diskHdr 3 4 = 16640 := by
  have hb1 : T * (disk.trackHeaderSize + disk.sectorsPerTrack * disk.sectorSize) ≤
      255 * (256 + 255 * 65535) :=
    Nat.mul_le_mul hT (Nat.add_le_add hh (Nat.mul_le_mul hspt hssz))
  have hb2 : (S - 1) * disk.sectorSize ≤ 254 * 65535 :=
    Nat.mul_le_mul (by omega) hssz
  have hlt : disk.headerOffset +
      T * (disk.trackHeaderSize + disk.sectorsPerTrack * disk.sectorSize) +
      disk.trackHeaderSize + (S - 1) * disk.sectorSize < 2 ^ 32 := by
    omega
  have hmain : sectorOffset disk T S =
      disk.headerOffset +
        T * (disk.trackHeaderSize + disk.sectorsPerTrack * disk.sectorSize) +
        disk.trackHeaderSize + (S - 1) * disk.sectorSize := by
    have hcast : (disk.headerOffset : Int) +
        (T : Int) * ((disk.trackHeaderSize : Int) +
          (disk.sectorsPerTrack : Int) * (disk.sectorSize : Int)) +
        (disk.trackHeaderSize : Int) + ((S : Int) - 1) * (disk.sectorSize : Int) =
        ((disk.headerOffset +
          T * (disk.trackHeaderSize + disk.sectorsPerTrack * disk.sectorSize) +
          disk.trackHeaderSize + (S - 1) * disk.sectorSize : Nat) : Int) := by
      have h1 : ((S - 1 : Nat) : Int) = (S : Int) - 1 := by omega
      push_cast
      rw [h1]
    rw [sectorOffset, if_pos hext]
    rw [hcast, Int.emod_eq_of_lt (Int.natCast_nonneg _) (by exact_mod_cast hlt),
      Int.toNat_natCast]
  refine ⟨hmain, ?_, ?_, by decide⟩
  · intro env fdc hsz hct hsec hle hopen
    have hguard1 : ¬(S = 0) := by omega
    have hguard2 : ¬(disk.sectorsPerTrack < S) := by omega
    rcases h : env.readFull with _ | _ <;>
      simp [readSectorData, hsz, hguard1, hguard2, hopen, h, hct, hsec]
  · intro env fdc hsz hct hsec hopen
    simp [writeSectorData, hsz, hopen, hct, hsec]

/-- C4, witness for `gateway_offset_formula` at the spec's scenario-5
parameters (T = 3, S = 4 on the 256/256/9/512 headered geometry). -/
theorem gateway_offset_formula_witness :
    sectorOffset diskHdr 3 4 =
      diskHdr.headerOffset +
        3 * (diskHdr.trackHeaderSize + diskHdr.sectorsPerTrack * diskHdr.sectorSize) +
        diskHdr.trackHeaderSize + (4 - 1) * diskHdr.sectorSize :=
  (gateway_offset_formula diskHdr 3 4 (by decide) (by decide) (by decide)
    (by decide) (by decide) (by decide) (by decide) (by decide)).1

/-! ## C7 — sector sizes above the 1024-byte staging buffer -/

/-- C7, the failing input evaluated.  An Extended-DSK track header whose
sector-size code byte (offset 0x14) is 4 parses to a sector size of
`128 << 4 = 2048 > 1024`, and a subsequent sector read sets the transfer
length to 2048 — the gateway then reads 2048 bytes into the 1024-byte
`sectorBuffer`, overrunning it; the claimed bound `sectorSize ≤ 1024`
does not hold. -/
theorem extended_dsk_oversize_sector_bug :
    diskOversize.sectorSize = 2048 ∧ 1024 < diskOversize.sectorSize ∧
    (readSectorData envOk diskOversize beginState).1.dataLength = 2048 ∧
    (readSectorData envOk diskOversize beginState).1.state =
      STATE_READING_SECTOR := by
  decide

/-! ## C8 — drive-select polarity -/

/-- C8, counterexample.  Sample with DS0 reading LOW and DS1 reading HIGH.
Under the claim's active-low convention DS0 is asserted, so the active
drive must become 0; the code (`digitalRead(WD_DS0) == HIGH`) instead
selects drive 1. -/
theorem drive_select_polarity_cex :
    checkDriveSelect false true 1 = 1 ∧ specDriveSelect false true 1 = 0 := by
  decide

/-- C8, amended.  `checkDriveSelect` implements the spec's selection rule
with the polarity inverted: the drive-select lines act *active-high* — the
active drive becomes 0 when DS0 reads HIGH, else 1 when DS1 reads HIGH,
else keeps its previous value. -/
theorem drive_select_active_high (ds0High ds1High : Bool) (prev : Nat) :
    checkDriveSelect ds0High ds1High prev =
      specDriveSelect (!ds0High) (!ds1High) prev := by
  cases ds0High <;> cases ds1High <;>
    simp [checkDriveSelect, specDriveSelect]

/-! ## C9 — the catalogue scan's extension test -/

/-- C9, counterexample.  `GAME.DSK.BAK` does not end in any of the four
extensions, yet `scanImages` catalogues it: the source tests with `strstr`
(substring), not a suffix test. -/
theorem scan_substring_cex :
    scanImages [⟨"GAME.DSK.BAK".toList, false⟩] = ["GAME.DSK.BAK".toList] ∧
    specAcceptName "GAME.DSK.BAK".toList = false := by
  decide

/-- The enumeration loop of `scanImages` with the counter at `t` keeps the
first `100 − t` accepted names, in enumeration order. -/
theorem scanLoop_eq (es : List DirEntry) : ∀ t : Nat,
    scanLoop es t =
      (((es.filter fun e => !e.isDir && matchesExt e.name).map
        fun e => e.name.take 63).take (MAX_DISK_IMAGES - t)) := by
  induction es with
  | nil => intro t; simp [scanLoop]
  | cons e es ih =>
    intro t
    by_cases hacc : e.isDir = false ∧ matchesExt e.name = true
    · have hkeep : (!e.isDir && matchesExt e.name) = true := by
        rw [hacc.1, hacc.2]; rfl
      by_cases ht : t < MAX_DISK_IMAGES
      · have hsplit : MAX_DISK_IMAGES - t = (MAX_DISK_IMAGES - (t + 1)) + 1 := by
          simp only [MAX_DISK_IMAGES] at ht ⊢; omega
        rw [scanLoop, if_pos ⟨hacc.1, hacc.2, ht⟩, ih]
        simp only [List.filter_cons, hkeep, if_true, List.map_cons, hsplit,
          List.take_succ_cons]
      · have hz : MAX_DISK_IMAGES - t = 0 := by
          simp only [MAX_DISK_IMAGES] at ht ⊢; omega
        rw [scanLoop, if_neg (by tauto), ih]
        simp [hz]
    · have hkeep : (!e.isDir && matchesExt e.name) = false := by
        rcases h1 : e.isDir <;> rcases h2 : matchesExt e.name <;> simp_all
      rw [scanLoop, if_neg (by tauto), ih]
      simp [List.filter_cons, hkeep]

/-- C9, amended.  The catalogue is exactly the backend's enumeration order,
filtered to non-directory entries whose (63-character-truncated) uppercased
name *contains* `.DSK`, `.IMG`, `.ST` or `.HFE` as a substring (`strstr`,
not a suffix test — so every name ending in one of the extensions is
accepted, but so are names like `GAME.DSK.BAK`), truncated to the first
100 accepted entries. -/
theorem scan_images_characterization (entries : List DirEntry) :
    scanImages entries =
      (((entries.filter fun e => !e.isDir && matchesExt e.name).map
        fun e => e.name.take 63).take MAX_DISK_IMAGES) := by
  rw [scanImages, scanLoop_eq, Nat.sub_zero]

/-! ## Helper lemmas on command dispatch and runs -/

/-- Masking with `0xF0` and then `0xE0` is masking with `0xE0`. -/
theorem and_f0_then_e0 (c : Nat) : (c &&& 0xF0) &&& 0xE0 = c &&& 0xE0 := by
  rw [Nat.and_assoc, show ((0xF0 : Nat) &&& 0xE0) = 0xE0 from by decide]

/-- Dispatching any Type-I command byte: the handler sets BUSY and moves to
SEEKING, performs no file traffic, and — the point of C1 — leaves DRQ
untouched. -/
theorem typeI_dispatch (env : SdEnv) (disk : DiskImage) (now : Nat) (c : Nat)
    (hc : c < 256) (ht : isTypeI c = true) (s : FDCState) :
    (stepFdc disk ⟨Act.busWrite 0 c, env, now⟩ s).1.drq = s.drq ∧
    (stepFdc disk ⟨Act.busWrite 0 c, env, now⟩ s).1.state = STATE_SEEKING ∧
    (stepFdc disk ⟨Act.busWrite 0 c, env, now⟩ s).1.busy = true ∧
    (stepFdc disk ⟨Act.busWrite 0 c, env, now⟩ s).2 = [] := by
  have hmod : c % 256 = c := Nat.mod_eq_of_lt hc
  simp only [isTypeI, Bool.or_eq_true, beq_iff_eq] at ht
  simp only [stepFdc, handleWrite, hmod]
  rcases ht with ((((h0 | h1) | h2) | h3) | h4)
  · simp [h0, cmdRestore, CMD_RESTORE, CMD_SEEK, CMD_STEP, CMD_STEP_IN,
      CMD_STEP_OUT]
  · have hne : ¬(c &&& 0xF0 = 0x00) := by
      rw [h1]; decide
    simp [h1, hne, cmdSeek, CMD_RESTORE, CMD_SEEK, CMD_STEP, CMD_STEP_IN,
      CMD_STEP_OUT]
  · have hne0 : ¬(c &&& 0xF0 = 0x00) := by
      intro h; rw [← and_f0_then_e0, h] at h2; exact absurd h2 (by decide)
    have hne1 : ¬(c &&& 0xF0 = 0x10) := by
      intro h; rw [← and_f0_then_e0, h] at h2; exact absurd h2 (by decide)
    simp [h2, hne0, hne1, cmdStep, CMD_RESTORE, CMD_SEEK, CMD_STEP,
      CMD_STEP_IN, CMD_STEP_OUT]
  · have hne0 : ¬(c &&& 0xF0 = 0x00) := by
      intro h; rw [← and_f0_then_e0, h] at h3; exact absurd h3 (by decide)
    have hne1 : ¬(c &&& 0xF0 = 0x10) := by
      intro h; rw [← and_f0_then_e0, h] at h3; exact absurd h3 (by decide)
    have hne2 : ¬(c &&& 0xE0 = 0x20) := by
      rw [h3]; decide
    simp [h3, hne0, hne1, hne2, cmdStepIn, CMD_RESTORE, CMD_SEEK, CMD_STEP,
      CMD_STEP_IN, CMD_STEP_OUT]
  · have hne0 : ¬(c &&& 0xF0 = 0x00) := by
      intro h; rw [← and_f0_then_e0, h] at h4; exact absurd h4 (by decide)
    have hne1 : ¬(c &&& 0xF0 = 0x10) := by
      intro h; rw [← and_f0_then_e0, h] at h4; exact absurd h4 (by decide)
    have hne2 : ¬(c &&& 0xE0 = 0x20) := by
      rw [h4]; decide
    have hne3 : ¬(c &&& 0xE0 = 0x40) := by
      rw [h4]; decide
    simp [h4, hne0, hne1, hne2, hne3, cmdStepOut, CMD_RESTORE, CMD_SEEK,
      CMD_STEP, CMD_STEP_IN, CMD_STEP_OUT]

/-- Dispatching a command byte with high nibble 0xD reaches
`cmdForceInterrupt` from any state. -/
theorem forceInt_dispatch (env : SdEnv) (disk : DiskImage) (now : Nat) (c : Nat)
    (hc : c < 256) (hn : c &&& 0xF0 = CMD_FORCE_INT) (s : FDCState) :
    stepFdc disk ⟨Act.busWrite 0 c, env, now⟩ s =
      (cmdForceInterrupt { s with data := c, command := c }, []) := by
  have hmod : c % 256 = c := Nat.mod_eq_of_lt hc
  have he : c &&& 0xE0 = 0xC0 := by
    rw [← and_f0_then_e0, hn]; decide
  simp only [stepFdc, handleWrite, hmod]
  simp [hn, he, CMD_RESTORE, CMD_SEEK, CMD_STEP, CMD_STEP_IN, CMD_STEP_OUT,
    CMD_READ_SECTOR, CMD_READ_SECTORS, CMD_WRITE_SECTOR, CMD_WRITE_SECTORS,
    CMD_READ_ADDRESS, CMD_FORCE_INT]

/-- Runs compose over concatenation of input lists. -/
theorem runFdc_append (disk : DiskImage) : ∀ (l1 l2 : List StepInput) (s : FDCState),
    runFdc disk (l1 ++ l2) s =
      ((runFdc disk l2 (runFdc disk l1 s).1).1,
       (runFdc disk l1 s).2 ++ (runFdc disk l2 (runFdc disk l1 s).1).2) := by
  intro l1
  induction l1 with
  | nil => intro l2 s; simp [runFdc]
  | cons i l1 ih => intro l2 s; simp [runFdc, ih, List.append_assoc]

/-- Host Data-register writes that stop strictly short of the transfer
length keep the engine in `WAITING_FOR_DATA_IN`, advance only the cursor,
and perform no file traffic. -/
theorem runFdc_writes_partial (disk : DiskImage) (env : SdEnv) (now : Nat) :
    ∀ (bs : List Nat) (s : FDCState),
    s.state = STATE_WAITING_FOR_DATA_IN → s.dataIndex + bs.length < s.dataLength →
    (runFdc disk (mkWrites env now bs) s).2 = [] ∧
    (runFdc disk (mkWrites env now bs) s).1.state = STATE_WAITING_FOR_DATA_IN ∧
    (runFdc disk (mkWrites env now bs) s).1.dataIndex = s.dataIndex + bs.length ∧
    (runFdc disk (mkWrites env now bs) s).1.dataLength = s.dataLength ∧
    (runFdc disk (mkWrites env now bs) s).1.busy = s.busy ∧
    (runFdc disk (mkWrites env now bs) s).1.drq = s.drq := by
  intro bs
  induction bs with
  | nil =>
    intro s h1 h2
    simp [mkWrites, runFdc, h1]
  | cons b bs ih =>
    intro s h1 h2
    have hidx : s.dataIndex < s.dataLength := by
      simp only [List.length_cons] at h2; omega
    have hnotfull : ¬(s.dataLength ≤ s.dataIndex + 1) := by
      simp only [List.length_cons] at h2; omega
    simp only [mkWrites, List.map_cons, runFdc, stepFdc, handleWrite]
    rw [if_pos ⟨h1, hidx⟩, if_neg hnotfull]
    obtain ⟨e1, e2, e3, e4, e5, e6⟩ :=
      ih { s with data := b % 256,
                  sectorBuffer := fun i => if i = s.dataIndex then b % 256
                                           else s.sectorBuffer i,
                  dataIndex := s.dataIndex + 1 }
        h1 (by simp only [List.length_cons] at h2; simpa using by omega)
    refine ⟨by simpa using e1, by simpa using e2, ?_, by simpa using e4,
      by simpa using e5, by simpa using e6⟩
    simp only [List.length_cons]
    rw [show s.dataIndex + (bs.length + 1) = (s.dataIndex + 1) + bs.length by omega]
    simpa using e3

/-- C1, counterexample.  From reset, READ ADDRESS raises DRQ and enters
READING_SECTOR; a SEEK (Type-I) issued next moves the machine to SEEKING
*without clearing DRQ*: the reachable state has `DRQ = true` with the
sequencing state neither READING_SECTOR nor WAITING_FOR_DATA_IN. -/
theorem drq_in_seeking_cex :
    Reachable diskEmpty
      ((runFdc diskEmpty [⟨Act.busWrite 0 0xC0, envOk, 0⟩,
        ⟨Act.busWrite 0 0x10, envOk, 0⟩] beginState).1) ∧
    ((runFdc diskEmpty [⟨Act.busWrite 0 0xC0, envOk, 0⟩,
        ⟨Act.busWrite 0 0x10, envOk, 0⟩] beginState).1).drq = true ∧
    ((runFdc diskEmpty [⟨Act.busWrite 0 0xC0, envOk, 0⟩,
        ⟨Act.busWrite 0 0x10, envOk, 0⟩] beginState).1).state = STATE_SEEKING ∧
    ((runFdc diskEmpty [⟨Act.busWrite 0 0xC0, envOk, 0⟩,
        ⟨Act.busWrite 0 0x10, envOk, 0⟩] beginState).1).state ≠
      STATE_READING_SECTOR ∧
    ((runFdc diskEmpty [⟨Act.busWrite 0 0xC0, envOk, 0⟩,
        ⟨Act.busWrite 0 0x10, envOk, 0⟩] beginState).1).state ≠
      STATE_WAITING_FOR_DATA_IN :=
  ⟨⟨_, rfl⟩, by decide, by decide, by decide, by decide⟩

/-! ## C5 — FORCE INTERRUPT -/

/-- C5.  A command byte with high nibble 0xD is accepted in every sequencing
state: it clears BUSY and DRQ, asserts INTRQ, zeroes the status, returns the
machine to IDLE, and performs no file traffic.  In particular, issued in
WAITING_FOR_DATA_IN after any number of partial Data-register writes, the
whole run writes nothing to the image file. -/
theorem force_interrupt_unconditional (disk : DiskImage) (env : SdEnv)
    (now : Nat) (c : Nat) (bs : List Nat) (s : FDCState)
    (hc : c < 256) (hn : c &&& 0xF0 = CMD_FORCE_INT)
    (h1 : s.state = STATE_WAITING_FOR_DATA_IN)
    (h2 : s.dataIndex + bs.length < s.dataLength) :
    (∀ t : FDCState,
      (stepFdc disk ⟨Act.busWrite 0 c, env, now⟩ t).1.busy = false ∧
      (stepFdc disk ⟨Act.busWrite 0 c, env, now⟩ t).1.drq = false ∧
      (stepFdc disk ⟨Act.busWrite 0 c, env, now⟩ t).1.intrq = true ∧
      (stepFdc disk ⟨Act.busWrite 0 c, env, now⟩ t).1.state = STATE_IDLE ∧
      (stepFdc disk ⟨Act.busWrite 0 c, env, now⟩ t).1.status = 0 ∧
      (stepFdc disk ⟨Act.busWrite 0 c, env, now⟩ t).2 = []) ∧
    (runFdc disk (mkWrites env now bs ++ [⟨Act.busWrite 0 c, env, now⟩]) s).2 = [] ∧
    (runFdc disk (mkWrites env now bs ++ [⟨Act.busWrite 0 c, env, now⟩]) s).1.state
      = STATE_IDLE ∧
    (runFdc disk (mkWrites env now bs ++ [⟨Act.busWrite 0 c, env, now⟩]) s).1.busy
      = false ∧
    (runFdc disk (mkWrites env now bs ++ [⟨Act.busWrite 0 c, env, now⟩]) s).1.drq
      = false ∧
    (runFdc disk (mkWrites env now bs ++ [⟨Act.busWrite 0 c, env, now⟩]) s).1.intrq
      = true ∧
    (runFdc disk (mkWrites env now bs ++ [⟨Act.busWrite 0 c, env, now⟩]) s).1.status
      = 0 := by
  have hdisp : ∀ t : FDCState,
      stepFdc disk ⟨Act.busWrite 0 c, env, now⟩ t =
        (cmdForceInterrupt { t with data := c, command := c }, []) :=
    fun t => forceInt_dispatch env disk now c hc hn t
  constructor
  · intro t
    rw [hdisp t]
    simp [cmdForceInterrupt]
  · obtain ⟨e1, e2, e3, e4, e5, e6⟩ := runFdc_writes_partial disk env now bs s h1 h2
    rw [runFdc_append]
    simp only [runFdc, hdisp]
    simp [cmdForceInterrupt, e1]

/-- C5, witness: FORCE INTERRUPT (0xD0) after a WRITE SECTOR set-up and
three partial Data writes on the Timex geometry. -/
theorem force_interrupt_unconditional_witness :
    ((runFdc diskTimex
      (mkWrites envOk 0 [1, 2, 3] ++ [⟨Act.busWrite 0 0xD0, envOk, 0⟩])
      ((runFdc diskTimex [⟨Act.busWrite 0 0xA0, envOk, 0⟩] beginState).1)).2 = []) ∧
    ((runFdc diskTimex
      (mkWrites envOk 0 [1, 2, 3] ++ [⟨Act.busWrite 0 0xD0, envOk, 0⟩])
      ((runFdc diskTimex [⟨Act.busWrite 0 0xA0, envOk, 0⟩] beginState).1)).1.state
      = STATE_IDLE) :=
  have h := force_interrupt_unconditional diskTimex envOk 0 0xD0 [1, 2, 3]
    ((runFdc diskTimex [⟨Act.busWrite 0 0xA0, envOk, 0⟩] beginState).1)
    (by decide) (by decide) (by decide) (by decide)
  ⟨h.2.1, h.2.2.1⟩

/-! ## The inductive invariant -/

/-- `readSectorData` preserves the invariant. -/
theorem inv_readSectorData (env : SdEnv) (disk : DiskImage)
    (hssz : 0 < disk.sectorSize) (s : FDCState) (h : Inv s) :
    Inv (readSectorData env disk s).1 := by
  obtain ⟨h1, h2, h3, h4, h5⟩ := h
  simp only [readSectorData]
  split_ifs with e1 e2 e3 e4
  · exact ⟨h1, fun hs => absurd hs (by simp), h3, h4, h5⟩
  · exact ⟨h1, fun hs => absurd hs (by simp), h3, h4, h5⟩
  · exact ⟨h1, fun hs => absurd hs (by simp), h3, h4, h5⟩
  · refine ⟨h1, fun hs => absurd hs (by simp), h3, h4, fun i => ?_⟩
    dsimp only
    split_ifs
    · exact Nat.mod_lt _ (by norm_num)
    · exact h5 i
  · refine ⟨fun _ => hssz, fun hs => absurd hs (by simp), h3, h4, fun i => ?_⟩
    dsimp only
    split_ifs
    · exact Nat.mod_lt _ (by norm_num)
    · exact h5 i

/-- `writeSectorData` preserves the invariant, given a positive transfer
length (always the case at its only call site). -/
theorem inv_writeSectorData (env : SdEnv) (disk : DiskImage) (s : FDCState)
    (hlen : 0 < s.dataLength) (h : Inv s) : Inv (writeSectorData env disk s).1 := by
  obtain ⟨h1, h2, h3, h4, h5⟩ := h
  simp only [writeSectorData]
  split_ifs with e1 e2
  · exact ⟨h1, fun hs => absurd hs (by simp), h3, h4, h5⟩
  · exact ⟨h1, fun hs => absurd hs (by simp), h3, h4, h5⟩
  · exact ⟨h1, fun _ => hlen, h3, h4, h5⟩

/-- `cmdRestore` preserves the invariant. -/
theorem inv_cmdRestore (now : Nat) (s : FDCState) (h : Inv s) :
    Inv (cmdRestore now s) := by
  obtain ⟨h1, h2, h3, h4, h5⟩ := h
  simp only [cmdRestore]
  exact ⟨h1, fun hs => absurd hs (by simp), h3, show (0 : Nat) < 256 by decide, h5⟩

/-- `cmdSeek` preserves the invariant. -/
theorem inv_cmdSeek (now : Nat) (s : FDCState) (h : Inv s) :
    Inv (cmdSeek now s) := by
  obtain ⟨h1, h2, h3, h4, h5⟩ := h
  simp only [cmdSeek]
  exact ⟨h1, fun hs => absurd hs (by simp), h3, h4, h5⟩

/-- `cmdStep` preserves the invariant. -/
theorem inv_cmdStep (now : Nat) (s : FDCState) (h : Inv s) :
    Inv (cmdStep now s) := by
  obtain ⟨h1, h2, h3, h4, h5⟩ := h
  simp only [cmdStep]
  exact ⟨h1, fun hs => absurd hs (by simp), h3, h4, h5⟩

/-- `cmdStepIn` preserves the invariant. -/
theorem inv_cmdStepIn (now : Nat) (s : FDCState) (h : Inv s) :
    Inv (cmdStepIn now s) := by
  obtain ⟨h1, h2, h3, h4, h5⟩ := h
  simp only [cmdStepIn]
  exact ⟨h1, fun hs => absurd hs (by simp), h3, h4, h5⟩

/-- `cmdStepOut` preserves the invariant. -/
theorem inv_cmdStepOut (now : Nat) (s : FDCState) (h : Inv s) :
    Inv (cmdStepOut now s) := by
  obtain ⟨h1, h2, h3, h4, h5⟩ := h
  simp only [cmdStepOut]
  exact ⟨h1, fun hs => absurd hs (by simp), h3, h4, h5⟩

/-- `cmdReadSector` preserves the invariant. -/
theorem inv_cmdReadSector (env : SdEnv) (disk : DiskImage) (now : Nat)
    (hssz : 0 < disk.sectorSize) (s : FDCState) (h : Inv s) :
    Inv (cmdReadSector env disk now s).1 := by
  obtain ⟨h1, h2, h3, h4, h5⟩ := h
  simp only [cmdReadSector]
  split_ifs with e1
  · exact ⟨h1, h2, h3, h4, h5⟩
  all_goals exact inv_readSectorData env disk hssz _ ⟨h1, fun hs => absurd hs (by simp), h3, h4, h5⟩

/-- `cmdWriteSector` preserves the invariant. -/
theorem inv_cmdWriteSector (disk : DiskImage) (now : Nat)
    (hssz : 0 < disk.sectorSize) (s : FDCState) (h : Inv s) :
    Inv (cmdWriteSector disk now s) := by
  obtain ⟨h1, h2, h3, h4, h5⟩ := h
  simp only [cmdWriteSector]
  split_ifs with e1 e2
  · exact ⟨h1, h2, h3, h4, h5⟩
  · exact ⟨h1, h2, h3, h4, h5⟩
  all_goals exact ⟨fun _ => hssz, fun hs => absurd hs (by simp), h3, h4, h5⟩

/-- `cmdReadAddress` preserves the invariant. -/
theorem inv_cmdReadAddress (s : FDCState) (h : Inv s) :
    Inv (cmdReadAddress s) := by
  obtain ⟨h1, h2, h3, h4, h5⟩ := h
  simp only [cmdReadAddress]
  refine ⟨fun _ => show (0 : Nat) < 6 by decide, fun hs => absurd hs (by simp), h3, h4, fun i => ?_⟩
  show (if i = 0 then s.currentTrack else if i = 1 then 0 else if i = 2 then 1
    else if i = 3 then 2 else if i = 4 then 0 else if i = 5 then 0
    else s.sectorBuffer i) < 256
  split_ifs
  · exact h4
  · decide
  · decide
  · decide
  · decide
  · decide
  · exact h5 i

/-- `cmdForceInterrupt` preserves the invariant. -/
theorem inv_cmdForceInterrupt (s : FDCState) (h : Inv s) :
    Inv (cmdForceInterrupt s) := by
  obtain ⟨h1, h2, h3, h4, h5⟩ := h
  simp only [cmdForceInterrupt]
  exact ⟨fun hd => absurd hd (by simp), fun hs => absurd hs (by simp),
    h3, h4, h5⟩

/-- `handleRead` preserves the invariant. -/
theorem inv_handleRead (addr : Nat) (s : FDCState) (h : Inv s) :
    Inv (handleRead addr s).1 := by
  obtain ⟨h1, h2, h3, h4, h5⟩ := h
  rcases addr with _ | _ | _ | _ | n
  · exact ⟨h1, h2, h3, h4, h5⟩
  · exact ⟨h1, h2, h3, h4, h5⟩
  · exact ⟨h1, h2, h3, h4, h5⟩
  · simp only [handleRead]
    split_ifs with e1 e2
    · exact ⟨fun hd => absurd hd (by simp), fun hs => absurd hs (by simp),
        h5 _, h4, h5⟩
    · have e1' : s.state = STATE_READING_SECTOR ∧ s.dataIndex < s.dataLength := e1
      have e2' : ¬(s.dataLength ≤ s.dataIndex + 1) := e2
      refine ⟨fun _ => ?_, fun hs => ?_, h5 _, h4, h5⟩
      · show s.dataIndex + 1 < s.dataLength
        omega
      · have hs' : s.state = STATE_SECTOR_WRITE_COMPLETE := hs
        rw [e1'.1] at hs'
        exact absurd hs' (by decide)
    · exact ⟨h1, h2, h3, h4, h5⟩
  · exact ⟨h1, h2, h3, h4, h5⟩

/-- `handleWrite` preserves the invariant. -/
theorem inv_handleWrite (env : SdEnv) (disk : DiskImage) (now : Nat)
    (hssz : 0 < disk.sectorSize) (addr : Nat) (s : FDCState) (h : Inv s) :
    Inv (handleWrite env disk now addr s).1 := by
  obtain ⟨h1, h2, h3, h4, h5⟩ := h
  rcases addr with _ | _ | _ | _ | n
  · simp only [handleWrite]
    split_ifs with e1 e2 e3 e4 e5 e6 e7 e8 e9
    · exact inv_cmdRestore now _ ⟨h1, h2, h3, h4, h5⟩
    · exact inv_cmdSeek now _ ⟨h1, h2, h3, h4, h5⟩
    · exact inv_cmdStep now _ ⟨h1, h2, h3, h4, h5⟩
    · exact inv_cmdStepIn now _ ⟨h1, h2, h3, h4, h5⟩
    · exact inv_cmdStepOut now _ ⟨h1, h2, h3, h4, h5⟩
    · exact inv_cmdReadSector env disk now hssz _ ⟨h1, h2, h3, h4, h5⟩
    · exact inv_cmdWriteSector disk now hssz _ ⟨h1, h2, h3, h4, h5⟩
    · exact inv_cmdReadAddress _ ⟨h1, h2, h3, h4, h5⟩
    · exact inv_cmdForceInterrupt _ ⟨h1, h2, h3, h4, h5⟩
    · exact ⟨h1, h2, h3, h4, h5⟩
  · exact ⟨h1, h2, h3, h4, h5⟩
  · exact ⟨h1, h2, h3, h4, h5⟩
  · simp only [handleWrite]
    split_ifs with e1 e2
    · have e1' : s.state = STATE_WAITING_FOR_DATA_IN ∧ s.dataIndex < s.dataLength := e1
      apply inv_writeSectorData
      · show 0 < s.dataLength
        omega
      · refine ⟨fun hd => absurd hd (by simp), fun hs => absurd hs (by simp),
          h3, h4, fun i => ?_⟩
        show (if i = s.dataIndex then s.data else s.sectorBuffer i) < 256
        split_ifs
        · exact h3
        · exact h5 i
    · have e1' : s.state = STATE_WAITING_FOR_DATA_IN ∧ s.dataIndex < s.dataLength := e1
      have e2' : ¬(s.dataLength ≤ s.dataIndex + 1) := e2
      refine ⟨fun _ => ?_, fun hs => ?_, h3, h4, fun i => ?_⟩
      · show s.dataIndex + 1 < s.dataLength
        omega
      · have hs' : s.state = STATE_SECTOR_WRITE_COMPLETE := hs
        rw [e1'.1] at hs'
        exact absurd hs' (by decide)
      · show (if i = s.dataIndex then s.data else s.sectorBuffer i) < 256
        split_ifs
        · exact h3
        · exact h5 i
    · exact ⟨h1, h2, h3, h4, h5⟩
  · exact ⟨h1, h2, h3, h4, h5⟩

/-- `processStateMachine` preserves the invariant. -/
theorem inv_processStateMachine (env : SdEnv) (disk : DiskImage) (now : Nat)
    (hssz : 0 < disk.sectorSize) (s : FDCState) (h : Inv s) :
    Inv (processStateMachine env disk now s).1 := by
  obtain ⟨h1, h2, h3, h4, h5⟩ := h
  rcases s with ⟨status, track, sector, data, command, ct, dir, busy, drq, intrq,
    idx, len, buf, ost, srate, st, rem, ms⟩
  cases st with
  | STATE_SEEKING =>
    simp only [processStateMachine]
    by_cases e1 : srate ≤ now - ost
    · rw [if_pos e1]
      by_cases e2 : command &&& 0xF0 = CMD_RESTORE
      · rw [if_pos e2]
        exact ⟨h1, fun hs => absurd hs (by simp), h3,
          show (0 : Nat) < 256 by decide, h5⟩
      · rw [if_neg e2]
        by_cases e3 : command &&& 0xF0 = CMD_SEEK
        · rw [if_pos e3]
          exact ⟨h1, fun hs => absurd hs (by simp), h3, h3, h5⟩
        · rw [if_neg e3]
          refine ⟨h1, fun hs => absurd hs (by simp), h3, ?_, h5⟩
          show (if MAX_TRACKS < (((ct : Int) + dir).emod 256).toNat then MAX_TRACKS
            else (((ct : Int) + dir).emod 256).toNat) < 256
          simp only [MAX_TRACKS]
          split_ifs with hcl
          · decide
          · omega
    · rw [if_neg e1]
      exact ⟨h1, fun hs => absurd hs (by simp), h3, h4, h5⟩
  | STATE_SECTOR_READ_COMPLETE =>
    simp only [processStateMachine]
    split_ifs with e1
    · exact inv_readSectorData env disk hssz _
        ⟨h1, fun hs => absurd hs (by simp), h3, h4, h5⟩
    · exact ⟨fun hd => absurd hd (by simp), fun hs => absurd hs (by simp),
        h3, h4, h5⟩
  | STATE_SECTOR_WRITE_COMPLETE =>
    simp only [processStateMachine]
    split_ifs with e1
    · exact ⟨fun _ => h2 rfl, fun hs => absurd hs (by simp), h3, h4, h5⟩
    · exact ⟨fun hd => absurd hd (by simp), fun hs => absurd hs (by simp),
        h3, h4, h5⟩
  | STATE_IDLE => exact ⟨h1, h2, h3, h4, h5⟩
  | STATE_SETTLING => exact ⟨h1, h2, h3, h4, h5⟩
  | STATE_READING_SECTOR => exact ⟨h1, h2, h3, h4, h5⟩
  | STATE_WRITING_SECTOR => exact ⟨h1, h2, h3, h4, h5⟩
  | STATE_WAITING_FOR_DATA_IN => exact ⟨h1, h2, h3, h4, h5⟩
  | STATE_WAITING_FOR_DATA_OUT => exact ⟨h1, h2, h3, h4, h5⟩

/-- One engine step preserves the invariant. -/
theorem inv_stepFdc (disk : DiskImage) (hssz : 0 < disk.sectorSize)
    (inp : StepInput) (s : FDCState) (h : Inv s) : Inv (stepFdc disk inp s).1 := by
  obtain ⟨act, env, now⟩ := inp
  cases act with
  | busRead addr => exact inv_handleRead addr s h
  | busWrite addr d =>
    apply inv_handleWrite env disk now hssz addr
    obtain ⟨h1, h2, h3, h4, h5⟩ := h
    exact ⟨h1, h2, Nat.mod_lt _ (by norm_num), h4, h5⟩
  | tick => exact inv_processStateMachine env disk now hssz s h

/-- Runs preserve the invariant. -/
theorem inv_runFdc (disk : DiskImage) (hssz : 0 < disk.sectorSize) :
    ∀ (l : List StepInput) (s : FDCState), Inv s → Inv (runFdc disk l s).1 := by
  intro l
  induction l with
  | nil => intro s h; exact h
  | cons i l ih => intro s h; exact ih _ (inv_stepFdc disk hssz i s h)

/-- The reset state satisfies the invariant. -/
theorem inv_beginState : Inv beginState :=
  ⟨fun hd => absurd hd (by simp [beginState]), fun hs => absurd hs (by simp [beginState]),
    by decide, by decide, fun _ => show (0 : Nat) < 256 by decide⟩

/-- Every reachable state satisfies the invariant. -/
theorem inv_reachable (disk : DiskImage) (hssz : 0 < disk.sectorSize)
    (s : FDCState) (h : Reachable disk s) : Inv s := by
  obtain ⟨l, rfl⟩ := h
  exact inv_runFdc disk hssz l beginState inv_beginState

/-! ## C1 — DRQ and the sequencing state -/

/-- C1, amended.  Type-I dispatch (RESTORE, SEEK, STEP, STEP IN, STEP OUT)
sets BUSY and state = SEEKING but leaves DRQ *unchanged* — it does not clear
it, so DRQ may remain true while SEEKING (see the counterexample).  The part
of the claimed invariant that survives on every reachable state (for a bound
image of positive sector size) is `DRQ = true → cursor < length`. -/
theorem drq_invariant_amended (disk : DiskImage) (hssz : 0 < disk.sectorSize) :
    (∀ s, Reachable disk s → s.drq = true → s.dataIndex < s.dataLength) ∧
    (∀ (env : SdEnv) (now c : Nat) (s : FDCState), c < 256 → isTypeI c = true →
      (stepFdc disk ⟨Act.busWrite 0 c, env, now⟩ s).1.drq = s.drq ∧
      (stepFdc disk ⟨Act.busWrite 0 c, env, now⟩ s).1.state = STATE_SEEKING) := by
  constructor
  · intro s hr hd
    exact (inv_reachable disk hssz s hr).1 hd
  · intro env now c s hc ht
    obtain ⟨d1, d2, _, _⟩ := typeI_dispatch env disk now c hc ht s
    exact ⟨d1, d2⟩

/-- C1, witness: the amended invariant applied from reset on the Timex
geometry, and a SEEK byte (0x13) dispatched on the reset state. -/
theorem drq_invariant_amended_witness :
    (beginState.drq = true → beginState.dataIndex < beginState.dataLength) ∧
    (stepFdc diskTimex ⟨Act.busWrite 0 0x13, envOk, 0⟩ beginState).1.state =
      STATE_SEEKING :=
  ⟨(drq_invariant_amended diskTimex (by decide)).1 beginState ⟨[], rfl⟩,
   ((drq_invariant_amended diskTimex (by decide)).2 envOk 0 0x13 beginState
     (by decide) (by decide)).2⟩

/-! ## C2 — the head-position bound -/

/-- C2, counterexample.  Issue SEEK (0x10), then load 255 into the Data
register while the seek is pending, then let the step timer expire: the
completion copies the Data register into `currentTrack` with no clamp, so
the reachable state has `currentTrack = 255 > MAX_TRACKS = 84`. -/
theorem seek_track_out_of_range_cex :
    Reachable diskEmpty
      ((runFdc diskEmpty [⟨Act.busWrite 0 0x10, envOk, 0⟩,
        ⟨Act.busWrite 3 255, envOk, 0⟩, ⟨Act.tick, envOk, 6000⟩] beginState).1) ∧
    ((runFdc diskEmpty [⟨Act.busWrite 0 0x10, envOk, 0⟩,
        ⟨Act.busWrite 3 255, envOk, 0⟩, ⟨Act.tick, envOk, 6000⟩] beginState).1).currentTrack
      = 255 ∧
    MAX_TRACKS <
      ((runFdc diskEmpty [⟨Act.busWrite 0 0x10, envOk, 0⟩,
        ⟨Act.busWrite 3 255, envOk, 0⟩, ⟨Act.tick, envOk, 6000⟩] beginState).1).currentTrack :=
  ⟨⟨_, rfl⟩, by decide, by decide⟩

/-- C2, amended.  On every reachable state `current_track` is only bounded
by its 8-bit range, `0 ≤ current_track ≤ 255`.  A completing SEEK copies the
Data register into `current_track` unclamped (so any value 0..255, above
MAX_TRACKS whenever Data > 84), while completing RESTORE/STEP commands do
keep `current_track ≤ MAX_TRACKS`. -/
theorem track_clamp_amended (disk : DiskImage) (hssz : 0 < disk.sectorSize) :
    (∀ s, Reachable disk s → s.currentTrack ≤ 255) ∧
    (∀ (env : SdEnv) (now : Nat) (s : FDCState), s.state = STATE_SEEKING →
      s.stepRate ≤ now - s.operationStartTime →
      (s.command &&& 0xF0 = CMD_SEEK →
        (processStateMachine env disk now s).1.currentTrack = s.data) ∧
      (s.command &&& 0xF0 ≠ CMD_SEEK →
        (processStateMachine env disk now s).1.currentTrack ≤ MAX_TRACKS)) := by
  constructor
  · intro s hr
    have hb := (inv_reachable disk hssz s hr).2.2.2.1
    omega
  · intro env now s hst htime
    rcases s with ⟨status, track, sector, data, command, ct, dir, busy, drq, intrq,
      idx, len, buf, ost, srate, st, rem, ms⟩
    dsimp only at hst
    subst hst
    simp only [processStateMachine]
    rw [if_pos htime]
    by_cases e2 : command &&& 0xF0 = CMD_RESTORE
    · rw [if_pos e2]
      refine ⟨fun hcmd => ?_, fun _ => show (0 : Nat) ≤ MAX_TRACKS by decide⟩
      rw [hcmd] at e2
      exact absurd e2 (by decide)
    · rw [if_neg e2]
      by_cases e3 : command &&& 0xF0 = CMD_SEEK
      · rw [if_pos e3]
        exact ⟨fun _ => rfl, fun hne => absurd e3 hne⟩
      · rw [if_neg e3]
        refine ⟨fun hcmd => absurd hcmd e3, fun _ => ?_⟩
        show (if MAX_TRACKS < (((ct : Int) + dir).emod 256).toNat then MAX_TRACKS
          else (((ct : Int) + dir).emod 256).toNat) ≤ MAX_TRACKS
        simp only [MAX_TRACKS]
        split_ifs with hcl
        · exact le_refl _
        · omega

/-- C2, witness: a SEEK issued from reset on the Timex geometry completes at
`now = 6000` with `currentTrack` equal to the Data register. -/
theorem track_clamp_amended_witness :
    (processStateMachine envOk diskTimex 6000
      ((runFdc diskTimex [⟨Act.busWrite 0 0x10, envOk, 0⟩] beginState).1)).1.currentTrack
      = ((runFdc diskTimex [⟨Act.busWrite 0 0x10, envOk, 0⟩] beginState).1).data :=
  ((track_clamp_amended diskTimex (by decide)).2 envOk 6000
    ((runFdc diskTimex [⟨Act.busWrite 0 0x10, envOk, 0⟩] beginState).1)
    (by decide) (by decide)).1 (by decide)

/-! ## C3 — WRITE SECTOR with an out-of-range Sector register -/

/-- Host Data-register writes that exactly fill the transfer trigger the
write gateway on the last byte: with a bound image and a successful backend
open, the run ends in SECTOR_WRITE_COMPLETE having written `sectorSize`
bytes at the computed offset — regardless of whether the Sector register is
in range, since `writeSectorData` never validates it. -/
theorem runFdc_writes_fill (disk : DiskImage) (env : SdEnv) (now : Nat)
    (hsz : disk.size ≠ 0) (hw : env.openWriteOk = true) :
    ∀ (bs : List Nat) (s : FDCState),
    s.state = STATE_WAITING_FOR_DATA_IN →
    s.dataIndex < s.dataLength →
    s.dataIndex + bs.length = s.dataLength →
    (runFdc disk (mkWrites env now bs) s).2 =
      [FileEvent.fileWrite (sectorOffset disk s.currentTrack s.sector)
        disk.sectorSize] ∧
    (runFdc disk (mkWrites env now bs) s).1.state =
      STATE_SECTOR_WRITE_COMPLETE ∧
    (runFdc disk (mkWrites env now bs) s).1.sector = s.sector ∧
    (runFdc disk (mkWrites env now bs) s).1.currentTrack = s.currentTrack ∧
    (runFdc disk (mkWrites env now bs) s).1.drq = false := by
  intro bs
  induction bs with
  | nil =>
    intro s h1 h2 h3
    simp only [List.length_nil] at h3
    omega
  | cons b bs ih =>
    intro s h1 h2 h3
    rcases bs with _ | ⟨b2, bs2⟩
    · have hfull : s.dataLength ≤ s.dataIndex + 1 := by
        simp only [List.length_cons, List.length_nil] at h3; omega
      simp only [mkWrites, List.map_cons, List.map_nil, runFdc, stepFdc,
        handleWrite]
      rw [if_pos ⟨h1, h2⟩, if_pos hfull]
      simp only [writeSectorData]
      rw [if_neg hsz, if_neg (by simp [hw])]
      simp
    · have hmid : ¬(s.dataLength ≤ s.dataIndex + 1) := by
        simp only [List.length_cons] at h3; omega
      simp only [mkWrites, List.map_cons, runFdc, stepFdc, handleWrite]
      rw [if_pos ⟨h1, h2⟩, if_neg hmid]
      have h3' : s.dataIndex + 1 + (b2 :: bs2).length = s.dataLength := by
        simp only [List.length_cons] at h3 ⊢; omega
      obtain ⟨e1, e2, e3, e4, e5⟩ := ih
        { s with data := b % 256,
                 sectorBuffer := fun i => if i = s.dataIndex then b % 256
                                          else s.sectorBuffer i,
                 dataIndex := s.dataIndex + 1 }
        h1 (show s.dataIndex + 1 < s.dataLength by omega) h3'
      exact ⟨by simpa [mkWrites] using e1, by simpa [mkWrites] using e2,
        by simpa [mkWrites] using e3, by simpa [mkWrites] using e4,
        by simpa [mkWrites] using e5⟩

/-- C3, the failing input evaluated.  On the 40×16×256 Timex geometry with
the Sector register at 17 (outside [1,16]), WRITE SECTOR (0xA0) does *not*
fail with record-not-found: it raises DRQ and enters WAITING_FOR_DATA_IN
with status = BUSY and no INTRQ; and once the host supplies the 256 bytes,
the engine writes them to the image file at offset (0·16 + (17−1))·256 =
4096 — the byte range of track 1, sector 1.  The claimed RNF failure and
"no byte of the image file is modified" both fail on the code. -/
theorem write_sector_no_validation_bug :
    (runFdc diskTimex [⟨Act.busWrite 2 17, envOk, 0⟩,
      ⟨Act.busWrite 0 0xA0, envOk, 0⟩] beginState).1.state =
      STATE_WAITING_FOR_DATA_IN ∧
    (runFdc diskTimex [⟨Act.busWrite 2 17, envOk, 0⟩,
      ⟨Act.busWrite 0 0xA0, envOk, 0⟩] beginState).1.drq = true ∧
    (runFdc diskTimex [⟨Act.busWrite 2 17, envOk, 0⟩,
      ⟨Act.busWrite 0 0xA0, envOk, 0⟩] beginState).1.status = ST_BUSY ∧
    (runFdc diskTimex [⟨Act.busWrite 2 17, envOk, 0⟩,
      ⟨Act.busWrite 0 0xA0, envOk, 0⟩] beginState).1.intrq = false ∧
    (runFdc diskTimex ([⟨Act.busWrite 2 17, envOk, 0⟩,
      ⟨Act.busWrite 0 0xA0, envOk, 0⟩] ++
      mkWrites envOk 0 (List.replicate 256 0xAB)) beginState).2 =
      [FileEvent.fileWrite 4096 256] := by
  refine ⟨by decide, by decide, by decide, by decide, ?_⟩
  rw [runFdc_append]
  have hsetup : (runFdc diskTimex [⟨Act.busWrite 2 17, envOk, 0⟩,
      ⟨Act.busWrite 0 0xA0, envOk, 0⟩] beginState).2 = [] := by decide
  rw [hsetup, List.nil_append]
  have hfill := runFdc_writes_fill diskTimex envOk 0 (by decide) (by decide)
    (List.replicate 256 0xAB)
    ((runFdc diskTimex [⟨Act.busWrite 2 17, envOk, 0⟩,
      ⟨Act.busWrite 0 0xA0, envOk, 0⟩] beginState).1)
    (by decide) (by decide) (by decide)
  rw [hfill.1]
  decide

/-! ## C6 — multi-sector read at the last sector of a track -/

/-- One-step unfolding of `runFdc`. -/
theorem runFdc_cons (disk : DiskImage) (i : StepInput) (l : List StepInput)
    (s : FDCState) :
    runFdc disk (i :: l) s =
      ((runFdc disk l (stepFdc disk i s).1).1,
       (stepFdc disk i s).2 ++ (runFdc disk l (stepFdc disk i s).1).2) := rfl

/-- Dispatching a READ SECTORS command byte reaches `cmdReadSector`. -/
theorem readSectors_dispatch (env : SdEnv) (disk : DiskImage) (now : Nat)
    (c : Nat) (hc : c < 256) (hn : c &&& 0xF0 = CMD_READ_SECTORS) (s : FDCState) :
    stepFdc disk ⟨Act.busWrite 0 c, env, now⟩ s =
      cmdReadSector env disk now { s with data := c, command := c } := by
  have hmod : c % 256 = c := Nat.mod_eq_of_lt hc
  have he : c &&& 0xE0 = 0x80 := by
    rw [← and_f0_then_e0, hn]; decide
  simp only [stepFdc, handleWrite, hmod]
  simp [hn, he, CMD_RESTORE, CMD_SEEK, CMD_STEP, CMD_STEP_IN, CMD_STEP_OUT,
    CMD_READ_SECTOR, CMD_READ_SECTORS]

/-- `cmdReadSector` on a bound image with an in-range Sector register and a
successful backend: one gateway read of the commanded sector, then
READING_SECTOR with cursor 0, length = sector size, DRQ set. -/
theorem cmdReadSector_success (env : SdEnv) (disk : DiskImage) (now : Nat)
    (s : FDCState) (hsz : disk.size ≠ 0) (hs1 : 1 ≤ s.sector)
    (hs2 : s.sector ≤ disk.sectorsPerTrack)
    (hopen : env.openReadOk = true) (hfull : env.readFull = true) :
    (cmdReadSector env disk now s).2 =
      [FileEvent.fileRead (sectorOffset disk s.currentTrack s.sector)
        disk.sectorSize] ∧
    (cmdReadSector env disk now s).1.state = STATE_READING_SECTOR ∧
    (cmdReadSector env disk now s).1.dataIndex = 0 ∧
    (cmdReadSector env disk now s).1.dataLength = disk.sectorSize ∧
    (cmdReadSector env disk now s).1.drq = true ∧
    (cmdReadSector env disk now s).1.sector = s.sector ∧
    (cmdReadSector env disk now s).1.currentTrack = s.currentTrack ∧
    (cmdReadSector env disk now s).1.multiSector =
      decide (s.command &&& 0xF0 = CMD_READ_SECTORS) ∧
    (cmdReadSector env disk now s).1.sectorsRemaining =
      (if s.command &&& 0xF0 = CMD_READ_SECTORS then disk.sectorsPerTrack
       else 1) := by
  have hg1 : ¬(s.sector = 0) := by omega
  have hg2 : ¬(disk.sectorsPerTrack < s.sector) := by omega
  simp [cmdReadSector, readSectorData, hsz, hg1, hg2, hopen, hfull]

/-- One Data-register read strictly inside the transfer: latch the byte,
advance the cursor, stay in READING_SECTOR. -/
theorem stepFdc_read3_mid (disk : DiskImage) (env : SdEnv) (now : Nat)
    (s : FDCState) (h1 : s.state = STATE_READING_SECTOR)
    (h2 : s.dataIndex < s.dataLength) (h3 : ¬(s.dataLength ≤ s.dataIndex + 1)) :
    stepFdc disk ⟨Act.busRead 3, env, now⟩ s =
      ({ s with data := s.sectorBuffer s.dataIndex,
                dataIndex := s.dataIndex + 1 }, []) := by
  simp only [stepFdc, handleRead]
  rw [if_pos ⟨h1, h2⟩, if_neg h3]

/-- The final Data-register read of a transfer: latch the byte, clear DRQ,
advance to SECTOR_READ_COMPLETE. -/
theorem stepFdc_read3_last (disk : DiskImage) (env : SdEnv) (now : Nat)
    (s : FDCState) (h1 : s.state = STATE_READING_SECTOR)
    (h2 : s.dataIndex < s.dataLength) (h3 : s.dataLength ≤ s.dataIndex + 1) :
    stepFdc disk ⟨Act.busRead 3, env, now⟩ s =
      ({ s with data := s.sectorBuffer s.dataIndex,
                dataIndex := s.dataIndex + 1,
                drq := false, state := STATE_SECTOR_READ_COMPLETE }, []) := by
  simp only [stepFdc, handleRead]
  rw [if_pos ⟨h1, h2⟩, if_pos h3]

/-- Host Data-register reads that exactly drain the staging buffer end in
SECTOR_READ_COMPLETE with DRQ low, leaving the registers, the multi-sector
bookkeeping and the handshake flags otherwise unchanged, with no file
traffic. -/
theorem runFdc_reads_drain (disk : DiskImage) (env : SdEnv) (now : Nat) :
    ∀ (k : Nat) (s : FDCState),
    s.state = STATE_READING_SECTOR →
    s.dataIndex < s.dataLength →
    s.dataIndex + k = s.dataLength →
    (runFdc disk (mkReads env now k) s).2 = [] ∧
    (runFdc disk (mkReads env now k) s).1.state = STATE_SECTOR_READ_COMPLETE ∧
    (runFdc disk (mkReads env now k) s).1.drq = false ∧
    (runFdc disk (mkReads env now k) s).1.sector = s.sector ∧
    (runFdc disk (mkReads env now k) s).1.currentTrack = s.currentTrack ∧
    (runFdc disk (mkReads env now k) s).1.multiSector = s.multiSector ∧
    (runFdc disk (mkReads env now k) s).1.sectorsRemaining = s.sectorsRemaining ∧
    (runFdc disk (mkReads env now k) s).1.intrq = s.intrq ∧
    (runFdc disk (mkReads env now k) s).1.busy = s.busy := by
  intro k
  induction k with
  | zero => intro s h1 h2 h3; omega
  | succ k ih =>
    intro s h1 h2 h3
    rw [show mkReads env now (k + 1) =
      ⟨Act.busRead 3, env, now⟩ :: mkReads env now k from rfl, runFdc_cons]
    rcases k with _ | k2
    · rw [stepFdc_read3_last disk env now s h1 h2 (by omega)]
      simp [mkReads, runFdc]
    · rw [stepFdc_read3_mid disk env now s h1 h2 (by omega)]
      obtain ⟨e1, e2, e3, e4, e5, e6, e7, e8, e9⟩ := ih
        { s with data := s.sectorBuffer s.dataIndex, dataIndex := s.dataIndex + 1 }
        h1 (show s.dataIndex + 1 < s.dataLength by omega)
        (show s.dataIndex + 1 + (k2 + 1) = s.dataLength by omega)
      exact ⟨by simpa using e1, e2, e3, e4, e5, e6, e7, e8, e9⟩

/-- The SECTOR_READ_COMPLETE tick of a multi-sector read whose Sector
register sits at the last sector of the track: the engine increments the
Sector register past `sectorsPerTrack`, the gateway's validation rejects it
*before any file access*, and the command ends with RNF, INTRQ and IDLE —
no wrap to sector 1 and no read of the next track. -/
theorem tick_read_complete_overrun (env : SdEnv) (disk : DiskImage) (now : Nat)
    (s : FDCState) (hsz : disk.size ≠ 0)
    (hst : s.state = STATE_SECTOR_READ_COMPLETE)
    (hms : s.multiSector = true) (hrem : 1 < s.sectorsRemaining)
    (hsec : s.sector = disk.sectorsPerTrack)
    (hspt2 : 2 ≤ disk.sectorsPerTrack) (hspt255 : disk.sectorsPerTrack ≤ 255) :
    (processStateMachine env disk now s).2 = [] ∧
    (processStateMachine env disk now s).1.intrq = true ∧
    (processStateMachine env disk now s).1.state = STATE_IDLE ∧
    (processStateMachine env disk now s).1.busy = false ∧
    (processStateMachine env disk now s).1.status = ST_RNF ∧
    (processStateMachine env disk now s).1.sector =
      (disk.sectorsPerTrack + 1) % 256 := by
  rcases s with ⟨status, track, sector, data, command, ct, dir, busy, drq, intrq,
    idx, len, buf, ost, srate, st, rem, ms⟩
  dsimp only at hst hms hrem hsec
  subst hst; subst hms; subst hsec
  simp only [processStateMachine]
  rw [if_pos ⟨trivial, hrem⟩]
  simp only [readSectorData]
  rw [if_neg hsz,
    if_pos (show (disk.sectorsPerTrack + 1) % 256 < 1 ∨
      disk.sectorsPerTrack < (disk.sectorsPerTrack + 1) % 256 by omega)]
  simp

/-- C6.  A READ SECTORS (0x90) command issued with the Sector register at
the last sector of the track, on a bound image with a successful backend:
the run performs exactly one gateway read — of that last sector — and, after
the host drains it and one state-machine tick runs, terminates with INTRQ
asserted, the state machine in IDLE, and the Sector register at
`sectorsPerTrack + 1` (in particular not wrapped to 1 and with no read of
the next track's sector 1). -/
theorem multi_sector_read_stops_at_last (disk : DiskImage) (env : SdEnv)
    (n1 n2 n3 : Nat) (s : FDCState)
    (hsz : disk.size ≠ 0)
    (hspt2 : 2 ≤ disk.sectorsPerTrack) (hspt255 : disk.sectorsPerTrack ≤ 255)
    (hssz : 0 < disk.sectorSize)
    (hopen : env.openReadOk = true) (hfull : env.readFull = true)
    (hsec : s.sector = disk.sectorsPerTrack) :
    (runFdc disk (⟨Act.busWrite 0 0x90, env, n1⟩ ::
        (mkReads env n2 disk.sectorSize ++ [⟨Act.tick, env, n3⟩])) s).2 =
      [FileEvent.fileRead
        (sectorOffset disk s.currentTrack disk.sectorsPerTrack)
        disk.sectorSize] ∧
    (runFdc disk (⟨Act.busWrite 0 0x90, env, n1⟩ ::
        (mkReads env n2 disk.sectorSize ++ [⟨Act.tick, env, n3⟩])) s).1.intrq =
      true ∧
    (runFdc disk (⟨Act.busWrite 0 0x90, env, n1⟩ ::
        (mkReads env n2 disk.sectorSize ++ [⟨Act.tick, env, n3⟩])) s).1.state =
      STATE_IDLE ∧
    (runFdc disk (⟨Act.busWrite 0 0x90, env, n1⟩ ::
        (mkReads env n2 disk.sectorSize ++ [⟨Act.tick, env, n3⟩])) s).1.sector =
      (disk.sectorsPerTrack + 1) % 256 ∧
    (runFdc disk (⟨Act.busWrite 0 0x90, env, n1⟩ ::
        (mkReads env n2 disk.sectorSize ++ [⟨Act.tick, env, n3⟩])) s).1.sector ≠
      1 := by
  have hd := readSectors_dispatch env disk n1 0x90 (by decide) (by decide) s
  obtain ⟨c1, c2, c3, c4, c5, c6, c7, c8, c9⟩ :=
    cmdReadSector_success env disk n1 { s with data := 0x90, command := 0x90 }
      hsz (show 1 ≤ s.sector by omega) (show s.sector ≤ disk.sectorsPerTrack by omega)
      hopen hfull
  dsimp only at c1 c2 c3 c4 c5 c6 c7 c8 c9
  obtain ⟨d1, d2, d3, d4, d5, d6, d7, d8, d9⟩ :=
    runFdc_reads_drain disk env n2 disk.sectorSize
      (cmdReadSector env disk n1 { s with data := 0x90, command := 0x90 }).1
      c2 (by rw [c3, c4]; exact hssz) (by rw [c3, c4]; omega)
  have hmulti : (runFdc disk (mkReads env n2 disk.sectorSize)
      (cmdReadSector env disk n1 { s with data := 0x90, command := 0x90 }).1).1.multiSector
      = true := by
    rw [d6, c8]; rfl
  have hremfin : 1 < (runFdc disk (mkReads env n2 disk.sectorSize)
      (cmdReadSector env disk n1 { s with data := 0x90, command := 0x90 }).1).1.sectorsRemaining := by
    rw [d7, c9, if_pos (by decide : (0x90 : Nat) &&& 0xF0 = CMD_READ_SECTORS)]
    omega
  have hsecfin : (runFdc disk (mkReads env n2 disk.sectorSize)
      (cmdReadSector env disk n1 { s with data := 0x90, command := 0x90 }).1).1.sector
      = disk.sectorsPerTrack := by
    rw [d4, c6]; exact hsec
  obtain ⟨t1, t2, t3, t4, t5, t6⟩ :=
    tick_read_complete_overrun env disk n3
      (runFdc disk (mkReads env n2 disk.sectorSize)
        (cmdReadSector env disk n1 { s with data := 0x90, command := 0x90 }).1).1
      hsz d2 hmulti hremfin hsecfin hspt2 hspt255
  rw [runFdc_cons, hd, runFdc_append]
  have htick : ∀ t : FDCState, runFdc disk [⟨Act.tick, env, n3⟩] t =
      ((processStateMachine env disk n3 t).1,
       (processStateMachine env disk n3 t).2 ++ []) := fun _ => rfl
  rw [htick]
  refine ⟨?_, ?_, ?_, ?_, ?_⟩
  · rw [c1, d1, t1]
    rw [hsec]
    simp
  · simpa using t2
  · simpa using t3
  · simpa using t6
  · show (processStateMachine env disk n3
      (runFdc disk (mkReads env n2 disk.sectorSize)
        (cmdReadSector env disk n1 { s with data := 0x90, command := 0x90 }).1).1).1.sector ≠ 1
    rw [t6]
    omega

/-- C6, witness: the Timex geometry (16 sectors of 256 bytes), Sector
register preloaded to 16 from reset, command 0x90. -/
theorem multi_sector_read_stops_at_last_witness :
    (runFdc diskTimex (⟨Act.busWrite 0 0x90, envOk, 0⟩ ::
        (mkReads envOk 0 diskTimex.sectorSize ++ [⟨Act.tick, envOk, 0⟩]))
      ((runFdc diskTimex [⟨Act.busWrite 2 16, envOk, 0⟩] beginState).1)).1.state =
      STATE_IDLE :=
  (multi_sector_read_stops_at_last diskTimex envOk 0 0 0
    ((runFdc diskTimex [⟨Act.busWrite 2 16, envOk, 0⟩] beginState).1)
    (by decide) (by decide) (by decide) (by decide) (by decide) (by decide)
    (by decide)).2.2.1

/-! ## C10 — data-bus ownership -/

/-- C10, counterexample.  A read cycle at t = 10 drives the bus with the
hold window expiring at t = 510; chip-select de-asserts at t = 100 (before
expiry, so no release); at t = 10000 — outside any read cycle and far past
the hold window — the data pins are still configured as outputs, because
the release only happens on a *later* de-assertion edge. -/
theorem bus_drive_past_hold_cex :
    (let r1 := handleBus envOk diskEmpty ⟨false, true, false, false, 0⟩ 0
      busInit beginState
     let r2 := handleBus envOk diskEmpty ⟨true, true, false, false, 0⟩ 10
      r1.1 r1.2.1
     let r3 := handleBus envOk diskEmpty ⟨false, true, false, false, 0⟩ 100
      r2.1 r2.2.1
     let r4 := handleBus envOk diskEmpty ⟨false, true, false, false, 0⟩ 10000
      r3.1 r3.2.1
     r4.1.pinsOutput = true ∧ r4.1.dataValidUntil = 510 ∧ 510 < 10000) := by
  decide

/-- C10, amended.  The bus engine starts driving the data pins only at a
chip-select assertion edge of a *read* cycle, but it reverts them to inputs
only at a de-assertion edge observed with the hold expiry already past.
Between the expiry and the next such edge the pins may stay outputs (see
the counterexample), so "inputs at every other time" fails; what holds is:
pins become outputs only through a read cycle, and any de-assertion edge
seen after expiry while driven does release the bus. -/
theorem bus_drive_discipline (env : SdEnv) (disk : DiskImage) (p : BusPins)
    (now : Nat) (b : BusState) (fdc : FDCState) :
    ((handleBus env disk p now b fdc).1.pinsOutput = true →
      b.pinsOutput = true ∨ (b.lastCS = false ∧ p.cs = true ∧ p.rw = true)) ∧
    (b.lastCS = true → p.cs = false → b.dataBusDriven = true →
      b.dataValidUntil < now →
      (handleBus env disk p now b fdc).1.pinsOutput = false ∧
      (handleBus env disk p now b fdc).1.dataBusDriven = false) := by
  rcases p with ⟨pcs, prw, pa0, pa1, pdbus⟩
  rcases b with ⟨blast, bpins, bdriven, buntil⟩
  cases blast <;> cases pcs <;> cases prw <;>
    constructor <;> intros <;> simp_all [handleBus] <;>
    split_ifs at * <;> simp_all

/-- C10, witness: with the bus driven, hold stamp 100 and the clock at
1000, a de-assertion edge releases the data pins. -/
theorem bus_drive_discipline_witness :
    (handleBus envOk diskEmpty ⟨false, true, false, false, 0⟩ 1000
      ⟨true, true, true, 100⟩ beginState).1.pinsOutput = false :=
  ((bus_drive_discipline envOk diskEmpty ⟨false, true, false, false, 0⟩ 1000
    ⟨true, true, true, 100⟩ beginState).2 rfl rfl rfl (by decide)).1

end WD1770
